import Mathlib

/-!
# Verification of the csv_reader ledger engine

Shallow embedding of the transaction state machine of `jan-schreib/csv_reader`.
The repository contains two parallel implementations of the same engine:

* free functions in `src/main.rs` (balances as `f64`), embedded below in the
  `Main` namespace;
* methods on `Transaction` in `src/transaction.rs` (balances as
  `rust_decimal::Decimal`), embedded below in the `Txm` namespace.

Both are embedded with exact arithmetic over `ℚ` (the spec treats amounts as
exact decimals; every claim under study is about the ledger logic, not about
floating-point rounding).  Rust's in-place mutation through
`iter_mut().find(..)` is modelled by `modifyFirst`, which rewrites the first
element of a list satisfying a predicate and leaves everything else unchanged.
-/

/-- One input record / history entry, mirroring `struct Transaction`
(`tx_type`, `client_id`, `tx_id`, `amount : Option<..>`, `disputed`). -/
structure Transaction where
  tx_type : String
  client_id : Nat
  tx_id : Nat
  amount : Option ℚ
  disputed : Bool
  deriving DecidableEq, Repr

/-- A client account, mirroring `struct Client` (`client_id`,
`available_funds`, `held_funds`, `total_funds`, `locked`, `transactions`). -/
structure Client where
  client_id : Nat
  available_funds : ℚ
  held_funds : ℚ
  total_funds : ℚ
  locked : Bool
  transactions : List Transaction
  deriving DecidableEq, Repr

/-- `Transaction::amount(&self) -> .. { self.amount.unwrap_or(0.0) }` -/
def Transaction.amount0 (t : Transaction) : ℚ := t.amount.getD 0

/-- The lookup predicate of `find_client` in both files:
`x.client_id == transaction.client_id && !x.locked`. -/
def isTarget (t : Transaction) (c : Client) : Bool :=
  c.client_id == t.client_id && !c.locked

/-- Rewrite the first element satisfying `p` using `f`; the model of mutating
the element returned by Rust's `iter_mut().find(..)`. -/
def modifyFirst (p : α → Bool) (f : α → α) : List α → List α
  | [] => []
  | x :: xs => if p x then f x :: xs else x :: modifyFirst p f xs

namespace Main

/-- `find_client` in `src/main.rs`: first client with matching id that is not
locked. -/
def find_client (t : Transaction) (clients : List Client) : Option Client :=
  clients.find? (isTarget t)

/-- `deposit` in `src/main.rs`: if `find_client` (which skips locked accounts)
finds a client, add the amount to `available` and `total` and push the event;
otherwise push a brand-new unlocked client funded with the amount. -/
def deposit (t : Transaction) (clients : List Client) : List Client :=
  match find_client t clients with
  | some _ =>
      modifyFirst (isTarget t) (fun c =>
        { c with
            available_funds := c.available_funds + t.amount0
            total_funds := c.total_funds + t.amount0
            transactions := c.transactions ++ [t] }) clients
  | none =>
      clients ++ [{ client_id := t.client_id
                    available_funds := t.amount0
                    held_funds := 0
                    total_funds := t.amount0
                    locked := false
                    transactions := [t] }]

/-- `withdrawal` in `src/main.rs`: on the first unlocked matching client,
if `available >= amount && total >= amount`, subtract the amount from both
and push the event; otherwise do nothing. -/
def withdrawal (t : Transaction) (clients : List Client) : List Client :=
  modifyFirst (isTarget t) (fun c =>
    if t.amount0 ≤ c.available_funds ∧ t.amount0 ≤ c.total_funds then
      { c with
          available_funds := c.available_funds - t.amount0
          total_funds := c.total_funds - t.amount0
          transactions := c.transactions ++ [t] }
    else c) clients

/-- `dispute` in `src/main.rs`: on the first unlocked matching client, find the
first history entry with the referenced `tx_id`; if found, move its amount from
`available` to `held`, set its `disputed` flag, and push the dispute event. -/
def dispute (t : Transaction) (clients : List Client) : List Client :=
  modifyFirst (isTarget t) (fun c =>
    match c.transactions.find? (fun x => x.tx_id == t.tx_id) with
    | some tr =>
        { c with
            available_funds := c.available_funds - tr.amount0
            held_funds := c.held_funds + tr.amount0
            transactions :=
              modifyFirst (fun x => x.tx_id == t.tx_id)
                (fun x => { x with disputed := true }) c.transactions ++ [t] }
    | none => c) clients

/-- `resolve` in `src/main.rs`: like `dispute`, but only acts when the found
transaction has `disputed == true`; it moves the amount back from `held` to
`available`, clears the flag and pushes the event. -/
def resolve (t : Transaction) (clients : List Client) : List Client :=
  modifyFirst (isTarget t) (fun c =>
    match c.transactions.find? (fun x => x.tx_id == t.tx_id) with
    | some tr =>
        if tr.disputed then
          { c with
              held_funds := c.held_funds - tr.amount0
              available_funds := c.available_funds + tr.amount0
              transactions :=
                modifyFirst (fun x => x.tx_id == t.tx_id)
                  (fun x => { x with disputed := false }) c.transactions ++ [t] }
        else c
    | none => c) clients

/-- `chargeback` in `src/main.rs`: only acts when the found transaction has
`disputed == true`.  For a deposit, `total -= amount; held -= amount`;
otherwise `total -= -amount; held -= amount`.  In both cases it clears the
flag, pushes the event and locks the client. -/
def chargeback (t : Transaction) (clients : List Client) : List Client :=
  modifyFirst (isTarget t) (fun c =>
    match c.transactions.find? (fun x => x.tx_id == t.tx_id) with
    | some tr =>
        if tr.disputed then
          { c with
              total_funds :=
                if tr.tx_type == "deposit" then c.total_funds - tr.amount0
                else c.total_funds - -tr.amount0
              held_funds := c.held_funds - tr.amount0
              transactions :=
                modifyFirst (fun x => x.tx_id == t.tx_id)
                  (fun x => { x with disputed := false }) c.transactions ++ [t]
              locked := true }
        else c
    | none => c) clients

/-- The dispatch of `handle_transactions` in `src/main.rs` for one record:
match on `tx_type`, unknown kinds are skipped. -/
def applyTx (clients : List Client) (t : Transaction) : List Client :=
  match t.tx_type with
  | "deposit" => deposit t clients
  | "withdrawal" => withdrawal t clients
  | "dispute" => dispute t clients
  | "resolve" => resolve t clients
  | "chargeback" => chargeback t clients
  | _ => clients

/-- `handle_transactions` in `src/main.rs`: fold the dispatcher over the input
records starting from the empty client vector. -/
def handle_transactions (txs : List Transaction) : List Client :=
  txs.foldl applyTx []

end Main

namespace Txm

/-- `Transaction::find_client` in `src/transaction.rs` (same body as in
`src/main.rs`). -/
def find_client (t : Transaction) (clients : List Client) : Option Client :=
  clients.find? (isTarget t)

/-- `Transaction::deposit` in `src/transaction.rs`: looks the client up by id
only (locked or not).  If found, the funds are added only when the client is
not locked; if not found, a new client is created. -/
def deposit (t : Transaction) (clients : List Client) : List Client :=
  match clients.find? (fun c => c.client_id == t.client_id) with
  | some _ =>
      modifyFirst (fun c => c.client_id == t.client_id) (fun c =>
        if c.locked then c
        else
          { c with
              available_funds := c.available_funds + t.amount0
              total_funds := c.total_funds + t.amount0
              transactions := c.transactions ++ [t] }) clients
  | none =>
      clients ++ [{ client_id := t.client_id
                    available_funds := t.amount0
                    held_funds := 0
                    total_funds := t.amount0
                    locked := false
                    transactions := [t] }]

/-- `Transaction::withdrawal` in `src/transaction.rs` (same body as
`withdrawal` in `src/main.rs`). -/
def withdrawal (t : Transaction) (clients : List Client) : List Client :=
  modifyFirst (isTarget t) (fun c =>
    if t.amount0 ≤ c.available_funds ∧ t.amount0 ≤ c.total_funds then
      { c with
          available_funds := c.available_funds - t.amount0
          total_funds := c.total_funds - t.amount0
          transactions := c.transactions ++ [t] }
    else c) clients

/-- `Transaction::dispute` in `src/transaction.rs` (same body as `dispute` in
`src/main.rs`). -/
def dispute (t : Transaction) (clients : List Client) : List Client :=
  modifyFirst (isTarget t) (fun c =>
    match c.transactions.find? (fun x => x.tx_id == t.tx_id) with
    | some tr =>
        { c with
            available_funds := c.available_funds - tr.amount0
            held_funds := c.held_funds + tr.amount0
            transactions :=
              modifyFirst (fun x => x.tx_id == t.tx_id)
                (fun x => { x with disputed := true }) c.transactions ++ [t] }
    | none => c) clients

/-- `Transaction::resolve` in `src/transaction.rs` (same body as `resolve` in
`src/main.rs`). -/
def resolve (t : Transaction) (clients : List Client) : List Client :=
  modifyFirst (isTarget t) (fun c =>
    match c.transactions.find? (fun x => x.tx_id == t.tx_id) with
    | some tr =>
        if tr.disputed then
          { c with
              held_funds := c.held_funds - tr.amount0
              available_funds := c.available_funds + tr.amount0
              transactions :=
                modifyFirst (fun x => x.tx_id == t.tx_id)
                  (fun x => { x with disputed := false }) c.transactions ++ [t] }
        else c
    | none => c) clients

/-- `Transaction::chargeback` in `src/transaction.rs` (same body as
`chargeback` in `src/main.rs`). -/
def chargeback (t : Transaction) (clients : List Client) : List Client :=
  modifyFirst (isTarget t) (fun c =>
    match c.transactions.find? (fun x => x.tx_id == t.tx_id) with
    | some tr =>
        if tr.disputed then
          { c with
              total_funds :=
                if tr.tx_type == "deposit" then c.total_funds - tr.amount0
                else c.total_funds - -tr.amount0
              held_funds := c.held_funds - tr.amount0
              transactions :=
                modifyFirst (fun x => x.tx_id == t.tx_id)
                  (fun x => { x with disputed := false }) c.transactions ++ [t]
              locked := true }
        else c
    | none => c) clients

/-- The dispatch of `Transaction::handle_transactions` for one record (the
`_ =>` arm of the source also prints a diagnostic, which is outside the
embedded state). -/
def applyTx (clients : List Client) (t : Transaction) : List Client :=
  match t.tx_type with
  | "deposit" => deposit t clients
  | "withdrawal" => withdrawal t clients
  | "dispute" => dispute t clients
  | "resolve" => resolve t clients
  | "chargeback" => chargeback t clients
  | _ => clients

/-- `Transaction::handle_transactions` in `src/transaction.rs`. -/
def handle_transactions (txs : List Transaction) : List Client :=
  txs.foldl applyTx []

end Txm

/-- Abbreviation for a deposit record. -/
def depTx (cl tx : Nat) (a : ℚ) : Transaction :=
  { tx_type := "deposit", client_id := cl, tx_id := tx, amount := some a,
    disputed := false }

/-- Abbreviation for a withdrawal record. -/
def wdTx (cl tx : Nat) (a : ℚ) : Transaction :=
  { tx_type := "withdrawal", client_id := cl, tx_id := tx, amount := some a,
    disputed := false }

/-- Abbreviation for a dispute record. -/
def dispTx (cl tx : Nat) : Transaction :=
  { tx_type := "dispute", client_id := cl, tx_id := tx, amount := none,
    disputed := false }

/-- Abbreviation for a resolve record. -/
def resTx (cl tx : Nat) : Transaction :=
  { tx_type := "resolve", client_id := cl, tx_id := tx, amount := none,
    disputed := false }

/-- Abbreviation for a chargeback record. -/
def cbTx (cl tx : Nat) : Transaction :=
  { tx_type := "chargeback", client_id := cl, tx_id := tx, amount := none,
    disputed := false }

/-- One event can be dispatched identically by both implementations unless it
is a deposit aimed at a client id that the store holds in locked state (the
one point where `src/main.rs` and `src/transaction.rs` differ). -/
def stepOk (t : Transaction) (s : List Client) : Bool :=
  !(t.tx_type == "deposit" && s.any (fun c => c.client_id == t.client_id && c.locked))

/-- `stepOk` holds at every step of a run of the `src/main.rs` engine. -/
def okRun : List Transaction → List Client → Bool
  | [], _ => true
  | t :: ts, s => stepOk t s && okRun ts (Main.applyTx s t)

/-- Concrete account used in witnesses: the result of a single 10-deposit by
client 1. -/
def wClient : Client :=
  { client_id := 1, available_funds := 10, held_funds := 0, total_funds := 10,
    locked := false, transactions := [depTx 1 1 10] }

/-- Concrete account used in witnesses: client 1 after `deposit 10;
withdraw 2; dispute the withdrawal` — the withdrawal is flagged as disputed
and its 2 are held. -/
def wAcct : Client :=
  { client_id := 1, available_funds := 6, held_funds := 2, total_funds := 8,
    locked := false,
    transactions := [depTx 1 1 10, { wdTx 1 2 2 with disputed := true }] }

/-- Concrete locked account used in witnesses: client 1 after `deposit 10;
deposit 10; dispute the second deposit; chargeback` — the disputed deposit is
reversed and the account is locked. -/
def lockedClient : Client :=
  { client_id := 1, available_funds := 10, held_funds := 0, total_funds := 10,
    locked := true,
    transactions := [depTx 1 1 10, depTx 1 2 10, dispTx 1 2, cbTx 1 2] }

-- sanity: spec §8 scenario 1
example :
    (Main.handle_transactions [depTx 1 1 1, depTx 1 1 1]).map
      (fun c => (c.available_funds, c.total_funds, c.held_funds, c.locked))
      = [(2, 2, 0, false)] := by
  simp +decide [Main.handle_transactions, Main.applyTx, Main.deposit, Main.withdrawal,
    Main.dispute, Main.resolve, Main.chargeback, Main.find_client, modifyFirst,
    isTarget, depTx, wdTx, dispTx, resTx, cbTx, Transaction.amount0, List.find?]
  all_goals norm_num

-- sanity: spec §8 scenario 2
example :
    (Main.handle_transactions [depTx 1 1 1, wdTx 1 2 5]).map
      (fun c => (c.available_funds, c.total_funds)) = [(1, 1)] := by
  simp +decide [Main.handle_transactions, Main.applyTx, Main.deposit, Main.withdrawal,
    Main.dispute, Main.resolve, Main.chargeback, Main.find_client, modifyFirst,
    isTarget, depTx, wdTx, dispTx, resTx, cbTx, Transaction.amount0, List.find?]

-- sanity: spec §8 scenario 3
example :
    (Main.handle_transactions [depTx 1 1 10, wdTx 1 2 2, dispTx 1 2, resTx 1 2]).map
      (fun c => (c.available_funds, c.held_funds, c.total_funds, c.locked))
      = [(8, 0, 8, false)] := by
  simp +decide [Main.handle_transactions, Main.applyTx, Main.deposit, Main.withdrawal,
    Main.dispute, Main.resolve, Main.chargeback, Main.find_client, modifyFirst,
    isTarget, depTx, wdTx, dispTx, resTx, cbTx, Transaction.amount0, List.find?]
  all_goals norm_num

-- sanity: spec §8 scenario 4
example :
    (Main.handle_transactions [depTx 1 1 10, wdTx 1 2 2, dispTx 1 2, cbTx 1 2]).map
      (fun c => (c.available_funds, c.held_funds, c.total_funds, c.locked))
      = [(6, 0, 10, true)] := by
  simp +decide [Main.handle_transactions, Main.applyTx, Main.deposit, Main.withdrawal,
    Main.dispute, Main.resolve, Main.chargeback, Main.find_client, modifyFirst,
    isTarget, depTx, wdTx, dispTx, resTx, cbTx, Transaction.amount0, List.find?]
  all_goals norm_num

-- sanity: spec §8 scenario 5, Txm version: subsequent deposit rejected
example :
    (Txm.handle_transactions
        [depTx 1 1 10, depTx 1 2 10, dispTx 1 2, cbTx 1 2, depTx 1 2 10]).map
      (fun c => (c.total_funds, c.locked)) = [(10, true)] := by
  simp +decide [Txm.handle_transactions, Txm.applyTx, Txm.deposit, Txm.withdrawal,
    Txm.dispute, Txm.resolve, Txm.chargeback, Txm.find_client, modifyFirst,
    isTarget, depTx, wdTx, dispTx, resTx, cbTx, Transaction.amount0, List.find?]

-- sanity: spec §8 scenario 5, Main version: ghost account appears
example :
    (Main.handle_transactions
        [depTx 1 1 10, depTx 1 2 10, dispTx 1 2, cbTx 1 2, depTx 1 2 10]).map
      (fun c => (c.client_id, c.total_funds, c.locked))
      = [(1, 10, true), (1, 10, false)] := by
  simp +decide [Main.handle_transactions, Main.applyTx, Main.deposit, Main.withdrawal,
    Main.dispute, Main.resolve, Main.chargeback, Main.find_client, modifyFirst,
    isTarget, depTx, wdTx, dispTx, resTx, cbTx, Transaction.amount0, List.find?]

theorem modifyFirst_append_of (p : α → Bool) (f : α → α) (pre : List α) (c : α)
    (post : List α) (hpre : ∀ b ∈ pre, p b = false) (hc : p c = true) :
    modifyFirst p f (pre ++ c :: post) = pre ++ f c :: post := by
  induction pre with
  | nil => simp [modifyFirst, hc]
  | cons a l ih =>
      have ha : p a = false := hpre a (by simp)
      have ih2 := ih fun b hb => hpre b (by simp [hb])
      simp [modifyFirst, ha, ih2]

theorem mem_modifyFirst {p : α → Bool} {f : α → α} :
    ∀ {l : List α} {a : α}, a ∈ modifyFirst p f l → a ∈ l ∨ ∃ b ∈ l, a = f b := by
  intro l
  induction l with
  | nil => intro a h; simp [modifyFirst] at h
  | cons x xs ih =>
      intro a h
      cases hx : p x with
      | true =>
          rw [modifyFirst.eq_def] at h
          simp only [hx, if_true] at h
          rcases List.mem_cons.1 h with h1 | h1
          · exact Or.inr ⟨x, List.mem_cons_self x xs, h1⟩
          · exact Or.inl (List.mem_cons_of_mem x h1)
      | false =>
          rw [modifyFirst.eq_def] at h
          simp only [hx, Bool.false_eq_true, if_false] at h
          rcases List.mem_cons.1 h with h1 | h1
          · exact Or.inl (h1 ▸ List.mem_cons_self x xs)
          · rcases ih h1 with h2 | ⟨b, hb, he⟩
            · exact Or.inl (List.mem_cons_of_mem x h2)
            · exact Or.inr ⟨b, List.mem_cons_of_mem x hb, he⟩

theorem modifyFirst_getElem? (p : α → Bool) (f : α → α) :
    ∀ {l : List α} {i : ℕ} {a : α}, l[i]? = some a → p a = false →
      (modifyFirst p f l)[i]? = some a := by
  intro l
  induction l with
  | nil => intro i a h; simp at h
  | cons x xs ih =>
      intro i a h hp
      cases i with
      | zero =>
          simp only [List.getElem?_cons_zero, Option.some.injEq] at h
          subst h
          simp [modifyFirst, hp]
      | succ n =>
          simp only [List.getElem?_cons_succ] at h
          by_cases hx : p x
          · simp [modifyFirst, hx, h]
          · simp [modifyFirst, hx, ih h hp]

/-- C6: when `chargeback` reaches an unlocked account (the first store entry
matching the event's client id) whose history's first entry with the
referenced `tx_id` is `tr` with `disputed == true`: if `tr` is a deposit,
`total` decreases by its amount, otherwise (in particular for a withdrawal)
`total` increases by its amount; in both cases `held` decreases by the amount,
the transaction's `disputed` flag is cleared, the chargeback event is appended
to the history, and the account becomes locked. -/
theorem c6_chargeback_effect (t : Transaction) (pre post : List Client)
    (c : Client) (tr : Transaction)
    (hpre : ∀ b ∈ pre, isTarget t b = false) (hc : isTarget t c = true)
    (htr : c.transactions.find? (fun x => x.tx_id == t.tx_id) = some tr)
    (hd : tr.disputed = true) :
    Main.chargeback t (pre ++ c :: post) =
      pre ++
        { c with
            total_funds :=
              if tr.tx_type == "deposit" then c.total_funds - tr.amount0
              else c.total_funds + tr.amount0
            held_funds := c.held_funds - tr.amount0
            transactions :=
              modifyFirst (fun x => x.tx_id == t.tx_id)
                (fun x => { x with disputed := false }) c.transactions ++ [t]
            locked := true } :: post := by
  rw [Main.chargeback, modifyFirst_append_of _ _ _ _ _ hpre hc]
  simp only [htr, hd, if_true, sub_neg_eq_add]

/-- C7: a withdrawal aimed at an existing unlocked account (the first store
entry matching the client id) with a non-negative amount is applied exactly
when `available >= amount` and `total >= amount`; on success the amount is
subtracted from both `available` and `total`, the event is appended to the
history, and the resulting `available` and `total` are non-negative; otherwise
the store is unchanged. -/
theorem c7_withdrawal_spec (t : Transaction) (pre post : List Client)
    (c : Client)
    (hpre : ∀ b ∈ pre, isTarget t b = false) (hc : isTarget t c = true)
    (_ha : 0 ≤ t.amount0) :
    (t.amount0 ≤ c.available_funds ∧ t.amount0 ≤ c.total_funds →
      Main.withdrawal t (pre ++ c :: post) =
        pre ++
          { c with
              available_funds := c.available_funds - t.amount0
              total_funds := c.total_funds - t.amount0
              transactions := c.transactions ++ [t] } :: post ∧
      0 ≤ c.available_funds - t.amount0 ∧ 0 ≤ c.total_funds - t.amount0) ∧
    (¬(t.amount0 ≤ c.available_funds ∧ t.amount0 ≤ c.total_funds) →
      Main.withdrawal t (pre ++ c :: post) = pre ++ c :: post) := by
  rw [Main.withdrawal, modifyFirst_append_of _ _ _ _ _ hpre hc]
  constructor
  · intro h
    refine ⟨by rw [if_pos h], sub_nonneg.2 h.1, sub_nonneg.2 h.2⟩
  · intro h
    rw [if_neg h]

/-- C8: a `resolve` or `chargeback` whose referenced `tx_id` is found in the
target unlocked account's history (first store entry matching the client id,
first history entry matching the `tx_id`) but whose transaction has
`disputed == false` leaves the whole store unchanged. -/
theorem c8_resolve_chargeback_noop (t : Transaction) (pre post : List Client)
    (c : Client) (tr : Transaction)
    (hpre : ∀ b ∈ pre, isTarget t b = false) (hc : isTarget t c = true)
    (htr : c.transactions.find? (fun x => x.tx_id == t.tx_id) = some tr)
    (hd : tr.disputed = false) :
    Main.resolve t (pre ++ c :: post) = pre ++ c :: post ∧
    Main.chargeback t (pre ++ c :: post) = pre ++ c :: post := by
  constructor
  · rw [Main.resolve, modifyFirst_append_of _ _ _ _ _ hpre hc]
    simp only [htr, hd, Bool.false_eq_true, if_false]
  · rw [Main.chargeback, modifyFirst_append_of _ _ _ _ _ hpre hc]
    simp only [htr, hd, Bool.false_eq_true, if_false]

/-- C2 (amended): a dispute is accepted whenever the referenced `tx_id` is
found in the target unlocked account's history, with no check of the
`disputed` flag: the first matching transaction's amount is moved from
`available` to `held`, its flag is set to `true` (even if it already was), and
the dispute event is appended.  In particular a second consecutive dispute of
the same `tx_id` moves the funds again instead of being rejected. -/
theorem c2_dispute_accepts_ignoring_flag (t : Transaction) (pre post : List Client)
    (c : Client) (tr : Transaction)
    (hpre : ∀ b ∈ pre, isTarget t b = false) (hc : isTarget t c = true)
    (htr : c.transactions.find? (fun x => x.tx_id == t.tx_id) = some tr) :
    Main.dispute t (pre ++ c :: post) =
      pre ++
        { c with
            available_funds := c.available_funds - tr.amount0
            held_funds := c.held_funds + tr.amount0
            transactions :=
              modifyFirst (fun x => x.tx_id == t.tx_id)
                (fun x => { x with disputed := true }) c.transactions ++ [t] } :: post := by
  rw [Main.dispute, modifyFirst_append_of _ _ _ _ _ hpre hc]
  simp only [htr]

/-- C3 (amended, the withdrawal half): if every account has non-negative
`available` funds, then after applying a `withdrawal` every account still has
non-negative `available` funds — the guard `available >= amount` makes the
subtraction safe.  (The dispute half of the original claim is refuted by
`c3_dispute_negative_available_cex`: `dispute` performs no such check.) -/
theorem c3_withdrawal_preserves_nonneg (t : Transaction) (clients : List Client)
    (h : ∀ c ∈ clients, 0 ≤ c.available_funds) :
    ∀ c ∈ Main.withdrawal t clients, 0 ≤ c.available_funds := by
  intro c hc
  rcases mem_modifyFirst hc with h1 | ⟨b, hb, rfl⟩
  · exact h c h1
  · by_cases hg : t.amount0 ≤ b.available_funds ∧ t.amount0 ≤ b.total_funds
    · simp only [if_pos hg]
      exact sub_nonneg.2 hg.1
    · simp only [if_neg hg]
      exact h b hb

theorem isTarget_of_locked {t : Transaction} {c : Client} (hl : c.locked = true) :
    isTarget t c = false := by
  simp [isTarget, hl]

theorem applyTx_locked_fixed (t : Transaction) {s : List Client} {i : ℕ}
    {c : Client} (h : s[i]? = some c) (hl : c.locked = true) :
    (Main.applyTx s t)[i]? = some c := by
  have hmf : ∀ f, (modifyFirst (isTarget t) f s)[i]? = some c :=
    fun f => modifyFirst_getElem? _ f h (isTarget_of_locked hl)
  have hlen : i < s.length := by
    rcases List.getElem?_eq_some.1 h with ⟨hlt, _⟩
    exact hlt
  rw [Main.applyTx]
  split
  · rw [Main.deposit]
    cases hfc : Main.find_client t s with
    | some c2 => exact hmf _
    | none => exact (List.getElem?_append_left hlen).trans h
  · exact hmf _
  · exact hmf _
  · exact hmf _
  · exact hmf _
  · exact h

theorem foldl_locked_fixed (txs : List Transaction) :
    ∀ {s : List Client} {i : ℕ} {c : Client}, s[i]? = some c → c.locked = true →
      (txs.foldl Main.applyTx s)[i]? = some c := by
  induction txs with
  | nil => intro s i c h _; exact h
  | cons t ts ih =>
      intro s i c h hl
      exact ih (applyTx_locked_fixed t h hl) hl

/-- C9: the `locked` flag is monotonic.  If after some event sequence the
`i`-th account of the store is locked, then after processing any further
events that entry is completely untouched — no handler ever modifies a locked
account, so in particular `locked` never flips back to `false`. -/
theorem c9_locked_monotone (txs rest : List Transaction) (i : ℕ) (c : Client)
    (h : (Main.handle_transactions txs)[i]? = some c) (hl : c.locked = true) :
    (Main.handle_transactions (txs ++ rest))[i]? = some c := by
  rw [Main.handle_transactions, List.foldl_append]
  exact foldl_locked_fixed rest h hl

theorem applyTx_balance (t : Transaction) {s : List Client}
    (h : ∀ c ∈ s, c.locked = false → c.total_funds = c.available_funds + c.held_funds) :
    ∀ c ∈ Main.applyTx s t, c.locked = false →
      c.total_funds = c.available_funds + c.held_funds := by
  intro c hc hlock
  unfold Main.applyTx at hc
  split at hc
  · -- deposit
    unfold Main.deposit at hc
    split at hc
    · rcases mem_modifyFirst hc with h1 | ⟨b, hb, rfl⟩
      · exact h c h1 hlock
      · simp only at hlock ⊢
        rw [h b hb hlock]; ring
    · rcases List.mem_append.1 hc with h1 | h1
      · exact h c h1 hlock
      · rw [List.mem_singleton.1 h1]; simp
  · -- withdrawal
    rcases mem_modifyFirst hc with h1 | ⟨b, hb, rfl⟩
    · exact h c h1 hlock
    · by_cases hg : t.amount0 ≤ b.available_funds ∧ t.amount0 ≤ b.total_funds
      · simp only [if_pos hg] at hlock ⊢
        rw [h b hb hlock]; ring
      · simp only [if_neg hg] at hlock ⊢
        exact h b hb hlock
  · -- dispute
    rcases mem_modifyFirst hc with h1 | ⟨b, hb, rfl⟩
    · exact h c h1 hlock
    · cases hf : b.transactions.find? (fun x => x.tx_id == t.tx_id) with
      | some tr =>
          simp only [hf] at hlock ⊢
          rw [h b hb hlock]; ring
      | none =>
          simp only [hf] at hlock ⊢
          exact h b hb hlock
  · -- resolve
    rcases mem_modifyFirst hc with h1 | ⟨b, hb, rfl⟩
    · exact h c h1 hlock
    · cases hf : b.transactions.find? (fun x => x.tx_id == t.tx_id) with
      | some tr =>
          by_cases hd : tr.disputed
          · simp only [hf, hd, if_true] at hlock ⊢
            rw [h b hb hlock]; ring
          · simp only [hf, hd, if_neg] at hlock ⊢
            exact h b hb hlock
      | none =>
          simp only [hf] at hlock ⊢
          exact h b hb hlock
  · -- chargeback
    rcases mem_modifyFirst hc with h1 | ⟨b, hb, rfl⟩
    · exact h c h1 hlock
    · cases hf : b.transactions.find? (fun x => x.tx_id == t.tx_id) with
      | some tr =>
          by_cases hd : tr.disputed
          · simp only [hf, hd, if_true] at hlock
            exact absurd hlock (by simp)
          · simp only [hf, hd, if_neg] at hlock ⊢
            exact h b hb hlock
      | none =>
          simp only [hf] at hlock ⊢
          exact h b hb hlock
  · -- unknown kind
    exact h c hc hlock

theorem foldl_balance (txs : List Transaction) :
    ∀ {s : List Client},
      (∀ c ∈ s, c.locked = false → c.total_funds = c.available_funds + c.held_funds) →
      ∀ c ∈ txs.foldl Main.applyTx s, c.locked = false →
        c.total_funds = c.available_funds + c.held_funds := by
  induction txs with
  | nil => intro s h; exact h
  | cons t ts ih => intro s h; exact ih (applyTx_balance t h)

/-- C1 (amended): after processing any event sequence, every account that is
not locked satisfies `total == available + held`.  (The unrestricted claim is
refuted by `c1_total_invariant_cex`: a chargeback of a disputed withdrawal
breaks the equation on the account it simultaneously locks.) -/
theorem c1_total_invariant_unlocked (txs : List Transaction) :
    ∀ c ∈ Main.handle_transactions txs, c.locked = false →
      c.total_funds = c.available_funds + c.held_funds :=
  foldl_balance txs (by intro c hc; simp at hc)

theorem withdrawal_eq : Txm.withdrawal = Main.withdrawal := rfl

theorem dispute_eq : Txm.dispute = Main.dispute := rfl

theorem resolve_eq : Txm.resolve = Main.resolve := rfl

theorem chargeback_eq : Txm.chargeback = Main.chargeback := rfl

theorem mainDeposit_cons_of_pos (t : Transaction) (x : Client) (xs : List Client)
    (h : isTarget t x = true) :
    Main.deposit t (x :: xs) =
      { x with
          available_funds := x.available_funds + t.amount0
          total_funds := x.total_funds + t.amount0
          transactions := x.transactions ++ [t] } :: xs := by
  rw [Main.deposit, Main.find_client, List.find?_cons_of_pos _ h]
  rw [modifyFirst, if_pos h]

theorem mainDeposit_cons_of_neg (t : Transaction) (x : Client) (xs : List Client)
    (h : isTarget t x = false) :
    Main.deposit t (x :: xs) = x :: Main.deposit t xs := by
  rw [Main.deposit, Main.deposit, Main.find_client, Main.find_client]
  rw [List.find?_cons_of_neg _ (by simp [h])]
  cases hm : List.find? (isTarget t) xs with
  | some c2 => rw [modifyFirst, if_neg (by simp [h])]
  | none => simp

theorem txmDeposit_cons_of_pos (t : Transaction) (x : Client) (xs : List Client)
    (h : (x.client_id == t.client_id) = true) :
    Txm.deposit t (x :: xs) =
      (if x.locked then x
       else
        { x with
            available_funds := x.available_funds + t.amount0
            total_funds := x.total_funds + t.amount0
            transactions := x.transactions ++ [t] }) :: xs := by
  rw [Txm.deposit]
  rw [show List.find? (fun c => c.client_id == t.client_id) (x :: xs) = some x by
    simp [h]]
  rw [modifyFirst, if_pos h]

theorem txmDeposit_cons_of_neg (t : Transaction) (x : Client) (xs : List Client)
    (h : (x.client_id == t.client_id) = false) :
    Txm.deposit t (x :: xs) = x :: Txm.deposit t xs := by
  rw [Txm.deposit, Txm.deposit]
  rw [show List.find? (fun c => c.client_id == t.client_id) (x :: xs)
      = List.find? (fun c => c.client_id == t.client_id) xs by simp [h]]
  cases hm : List.find? (fun c => c.client_id == t.client_id) xs with
  | some c2 => rw [modifyFirst, if_neg (by simp [h])]
  | none => simp

theorem deposit_eq_of_no_locked_match (t : Transaction) :
    ∀ s : List Client, (s.any fun c => c.client_id == t.client_id && c.locked) = false →
      Main.deposit t s = Txm.deposit t s := by
  intro s
  induction s with
  | nil => intro _; rfl
  | cons x xs ih =>
      intro h
      simp only [List.any_cons, Bool.or_eq_false_iff, Bool.and_eq_false_iff] at h
      obtain ⟨hx, hxs⟩ := h
      by_cases hid : (x.client_id == t.client_id) = true
      · have hlock : x.locked = false := by
          rcases hx with hx | hx
          · exact absurd hid (by simp [hx])
          · exact hx
        rw [mainDeposit_cons_of_pos t x xs (by simp [isTarget, hid, hlock]),
          txmDeposit_cons_of_pos t x xs hid, hlock]
        simp
      · have hid2 : (x.client_id == t.client_id) = false := by simpa using hid
        rw [mainDeposit_cons_of_neg t x xs (by simp [isTarget, hid2]),
          txmDeposit_cons_of_neg t x xs hid2,
          ih (by simpa using hxs)]

theorem applyTx_eq_of_stepOk (t : Transaction) (s : List Client)
    (h : stepOk t s = true) : Main.applyTx s t = Txm.applyTx s t := by
  rw [Main.applyTx, Txm.applyTx]
  split
  · next heq =>
      apply deposit_eq_of_no_locked_match
      rw [stepOk, heq] at h
      simpa using h
  · rfl
  · rfl
  · rfl
  · rfl
  · rfl

theorem foldl_eq_of_okRun :
    ∀ (txs : List Transaction) (s : List Client), okRun txs s = true →
      txs.foldl Main.applyTx s = txs.foldl Txm.applyTx s := by
  intro txs
  induction txs with
  | nil => intro s _; rfl
  | cons t ts ih =>
      intro s h
      rw [okRun, Bool.and_eq_true] at h
      rw [List.foldl_cons, List.foldl_cons, ← applyTx_eq_of_stepOk t s h.1]
      exact ih _ h.2

/-- C10 (amended): the `src/main.rs` and `src/transaction.rs` engines agree
(with arithmetic taken as exact) on every input sequence along which no
deposit ever targets a client id held in locked state.  (Without that proviso
they differ: see `c10_implementations_differ_cex` — `src/main.rs` then creates
a duplicate account while `src/transaction.rs` drops the deposit.) -/
theorem c10_equiv_no_locked_deposit (txs : List Transaction)
    (h : okRun txs [] = true) :
    Main.handle_transactions txs = Txm.handle_transactions txs :=
  foldl_eq_of_okRun txs [] h

/-- C1 counterexample: after `deposit 10; withdraw 2; dispute; chargeback` the
account has `available = 6`, `held = 0`, `total = 10`, so
`total == available + held` fails (the chargeback of the disputed withdrawal
adds the amount to `total` without restoring `available`). -/
theorem c1_total_invariant_cex :
    ¬ (∀ c ∈ Main.handle_transactions [depTx 1 1 10, wdTx 1 2 2, dispTx 1 2, cbTx 1 2],
        c.total_funds = c.available_funds + c.held_funds) := by
  intro hall
  have hev : Main.handle_transactions [depTx 1 1 10, wdTx 1 2 2, dispTx 1 2, cbTx 1 2]
      = [{ client_id := 1, available_funds := 6, held_funds := 0, total_funds := 10,
           locked := true,
           transactions := [depTx 1 1 10, wdTx 1 2 2, dispTx 1 2, cbTx 1 2] }] := by
    simp +decide [Main.handle_transactions, Main.applyTx, Main.deposit, Main.withdrawal,
      Main.dispute, Main.resolve, Main.chargeback, Main.find_client, modifyFirst,
      isTarget, depTx, wdTx, dispTx, resTx, cbTx, Transaction.amount0, List.find?]
    norm_num
  have h2 := hall _ (by rw [hev]; exact List.mem_singleton_self _)
  norm_num at h2

/-- C2 counterexample: two consecutive disputes of the same `tx_id` are both
accepted — the second one moves the deposited 10 from `available` to `held`
again, ending at `available = -10`, `held = 20` instead of being rejected. -/
theorem c2_double_dispute_cex :
    Main.handle_transactions [depTx 1 1 10, dispTx 1 1, dispTx 1 1]
        ≠ Main.handle_transactions [depTx 1 1 10, dispTx 1 1] ∧
    (Main.handle_transactions [depTx 1 1 10, dispTx 1 1, dispTx 1 1]).map
        (fun c => (c.available_funds, c.held_funds)) = [(-10, 20)] := by
  constructor <;>
    simp +decide [Main.handle_transactions, Main.applyTx, Main.deposit, Main.withdrawal,
      Main.dispute, Main.resolve, Main.chargeback, Main.find_client, modifyFirst,
      isTarget, depTx, wdTx, dispTx, resTx, cbTx, Transaction.amount0, List.find?] <;>
    norm_num

/-- C3 counterexample: before the dispute every account has non-negative
`available` (client 1 holds 2 after depositing 10 and withdrawing 8), yet
disputing the 10-deposit is accepted with no balance check and drives
`available` to `-8`. -/
theorem c3_dispute_negative_available_cex :
    (∀ c ∈ Main.handle_transactions [depTx 1 1 10, wdTx 1 2 8], 0 ≤ c.available_funds) ∧
    ¬ (∀ c ∈ Main.dispute (dispTx 1 1) (Main.handle_transactions [depTx 1 1 10, wdTx 1 2 8]),
        0 ≤ c.available_funds) := by
  have hev : Main.handle_transactions [depTx 1 1 10, wdTx 1 2 8]
      = [{ client_id := 1, available_funds := 2, held_funds := 0, total_funds := 2,
           locked := false, transactions := [depTx 1 1 10, wdTx 1 2 8] }] := by
    simp +decide [Main.handle_transactions, Main.applyTx, Main.deposit, Main.withdrawal,
      Main.dispute, Main.resolve, Main.chargeback, Main.find_client, modifyFirst,
      isTarget, depTx, wdTx, dispTx, resTx, cbTx, Transaction.amount0, List.find?]
    norm_num
  have hev2 : Main.dispute (dispTx 1 1) (Main.handle_transactions [depTx 1 1 10, wdTx 1 2 8])
      = [{ client_id := 1, available_funds := -8, held_funds := 10, total_funds := 2,
           locked := false,
           transactions := [{ depTx 1 1 10 with disputed := true }, wdTx 1 2 8,
             dispTx 1 1] }] := by
    rw [hev]
    simp +decide [Main.dispute, modifyFirst, isTarget, depTx, wdTx, dispTx,
      Transaction.amount0, List.find?]
    norm_num
  constructor
  · intro c hc
    rw [hev, List.mem_singleton] at hc
    rw [hc]
    norm_num
  · intro hall
    have h2 := hall _ (by rw [hev2]; exact List.mem_singleton_self _)
    norm_num at h2

/-- C4, evaluated at the failing input (a code bug in `src/main.rs`): after
`deposit 10; deposit 10; dispute; chargeback` the store is a single locked
account for client 1.  A further deposit for client 1 is *not* silently
dropped by the `src/main.rs` engine — it changes the store (a fresh duplicate
account is pushed), while the `src/transaction.rs` engine drops it as the
spec describes. -/
theorem c4_locked_deposit_creates_account :
    (Main.handle_transactions [depTx 1 1 10, depTx 1 2 10, dispTx 1 2, cbTx 1 2]).map
        (fun c => (c.client_id, c.locked)) = [(1, true)] ∧
    Main.deposit (depTx 1 3 5)
        (Main.handle_transactions [depTx 1 1 10, depTx 1 2 10, dispTx 1 2, cbTx 1 2])
      ≠ Main.handle_transactions [depTx 1 1 10, depTx 1 2 10, dispTx 1 2, cbTx 1 2] ∧
    Txm.deposit (depTx 1 3 5)
        (Txm.handle_transactions [depTx 1 1 10, depTx 1 2 10, dispTx 1 2, cbTx 1 2])
      = Txm.handle_transactions [depTx 1 1 10, depTx 1 2 10, dispTx 1 2, cbTx 1 2] := by
  refine ⟨?_, ?_, ?_⟩ <;>
    simp +decide [Main.handle_transactions, Main.applyTx, Main.deposit, Main.withdrawal,
      Main.dispute, Main.resolve, Main.chargeback, Main.find_client,
      Txm.handle_transactions, Txm.applyTx, Txm.deposit, Txm.withdrawal,
      Txm.dispute, Txm.resolve, Txm.chargeback, Txm.find_client, modifyFirst,
      isTarget, depTx, wdTx, dispTx, resTx, cbTx, Transaction.amount0, List.find?]

/-- C5, evaluated at the failing input (a code bug in `src/main.rs`): a
deposit for a client whose only account is locked pushes a second store entry
with the same `client_id`, so the store ends with two entries for client 1. -/
theorem c5_duplicate_client_entries :
    (Main.handle_transactions
        [depTx 1 1 10, depTx 1 2 10, dispTx 1 2, cbTx 1 2, depTx 1 3 5]).map
      Client.client_id = [1, 1] := by
  simp +decide [Main.handle_transactions, Main.applyTx, Main.deposit, Main.withdrawal,
    Main.dispute, Main.resolve, Main.chargeback, Main.find_client, modifyFirst,
    isTarget, depTx, wdTx, dispTx, resTx, cbTx, Transaction.amount0, List.find?]

/-- C10 counterexample: on the sequence ending with a deposit aimed at the
locked client 1, the two implementations produce different stores
(`src/main.rs` has a duplicate account, `src/transaction.rs` does not). -/
theorem c10_implementations_differ_cex :
    Main.handle_transactions
        [depTx 1 1 10, depTx 1 2 10, dispTx 1 2, cbTx 1 2, depTx 1 3 5]
      ≠ Txm.handle_transactions
        [depTx 1 1 10, depTx 1 2 10, dispTx 1 2, cbTx 1 2, depTx 1 3 5] := by
  simp +decide [Main.handle_transactions, Main.applyTx, Main.deposit, Main.withdrawal,
    Main.dispute, Main.resolve, Main.chargeback, Main.find_client,
    Txm.handle_transactions, Txm.applyTx, Txm.deposit, Txm.withdrawal,
    Txm.dispute, Txm.resolve, Txm.chargeback, Txm.find_client, modifyFirst,
    isTarget, depTx, wdTx, dispTx, resTx, cbTx, Transaction.amount0, List.find?]

theorem c1_total_invariant_unlocked_witness :
    wClient ∈ Main.handle_transactions [depTx 1 1 10] ∧ wClient.locked = false ∧
    wClient.total_funds = wClient.available_funds + wClient.held_funds :=
  ⟨by decide, by decide,
    c1_total_invariant_unlocked [depTx 1 1 10] wClient (by decide) (by decide)⟩

theorem c3_withdrawal_preserves_nonneg_witness :
    (∀ c ∈ [wClient], 0 ≤ c.available_funds) ∧
    (∀ c ∈ Main.withdrawal (wdTx 1 2 2) [wClient], 0 ≤ c.available_funds) :=
  ⟨by decide, c3_withdrawal_preserves_nonneg (wdTx 1 2 2) [wClient] (by decide)⟩

theorem c2_dispute_accepts_ignoring_flag_witness :
    isTarget (dispTx 1 2) wAcct = true ∧
    wAcct.transactions.find? (fun x => x.tx_id == (dispTx 1 2).tx_id)
      = some { wdTx 1 2 2 with disputed := true } ∧
    ({ wdTx 1 2 2 with disputed := true } : Transaction).disputed = true ∧
    Main.dispute (dispTx 1 2) [wAcct] =
      [{ wAcct with
          available_funds := wAcct.available_funds - 2
          held_funds := wAcct.held_funds + 2
          transactions :=
            modifyFirst (fun x => x.tx_id == (dispTx 1 2).tx_id)
              (fun x => { x with disputed := true }) wAcct.transactions
              ++ [dispTx 1 2] }] :=
  ⟨by decide, by decide, by decide,
    c2_dispute_accepts_ignoring_flag (dispTx 1 2) [] [] wAcct
      { wdTx 1 2 2 with disputed := true } (by decide) (by decide) (by decide)⟩

theorem c6_chargeback_effect_witness :
    isTarget (cbTx 1 2) wAcct = true ∧
    wAcct.transactions.find? (fun x => x.tx_id == (cbTx 1 2).tx_id)
      = some { wdTx 1 2 2 with disputed := true } ∧
    ({ wdTx 1 2 2 with disputed := true } : Transaction).disputed = true ∧
    Main.chargeback (cbTx 1 2) [wAcct] =
      [{ wAcct with
          total_funds := wAcct.total_funds + 2
          held_funds := wAcct.held_funds - 2
          transactions :=
            modifyFirst (fun x => x.tx_id == (cbTx 1 2).tx_id)
              (fun x => { x with disputed := false }) wAcct.transactions
              ++ [cbTx 1 2]
          locked := true }] :=
  ⟨by decide, by decide, by decide,
    c6_chargeback_effect (cbTx 1 2) [] [] wAcct
      { wdTx 1 2 2 with disputed := true } (by decide) (by decide) (by decide)
      (by decide)⟩

theorem c7_withdrawal_spec_witness :
    isTarget (wdTx 1 2 2) wClient = true ∧ (0 : ℚ) ≤ (wdTx 1 2 2).amount0 ∧
    ((wdTx 1 2 2).amount0 ≤ wClient.available_funds ∧
      (wdTx 1 2 2).amount0 ≤ wClient.total_funds) ∧
    (Main.withdrawal (wdTx 1 2 2) [wClient] =
      [{ wClient with
          available_funds := wClient.available_funds - 2
          total_funds := wClient.total_funds - 2
          transactions := wClient.transactions ++ [wdTx 1 2 2] }] ∧
      0 ≤ wClient.available_funds - 2 ∧ 0 ≤ wClient.total_funds - 2) :=
  ⟨by decide, by decide, by decide,
    (c7_withdrawal_spec (wdTx 1 2 2) [] [] wClient (by decide) (by decide)
      (by decide)).1 (by decide)⟩

theorem c8_resolve_chargeback_noop_witness :
    isTarget (resTx 1 1) wClient = true ∧
    wClient.transactions.find? (fun x => x.tx_id == (resTx 1 1).tx_id)
      = some (depTx 1 1 10) ∧
    (depTx 1 1 10).disputed = false ∧
    Main.resolve (resTx 1 1) [wClient] = [wClient] ∧
    Main.chargeback (resTx 1 1) [wClient] = [wClient] := by
  refine ⟨by decide, by decide, by decide, ?_, ?_⟩
  · exact (c8_resolve_chargeback_noop (resTx 1 1) [] [] wClient (depTx 1 1 10)
      (by decide) (by decide) (by decide) (by decide)).1
  · exact (c8_resolve_chargeback_noop (resTx 1 1) [] [] wClient (depTx 1 1 10)
      (by decide) (by decide) (by decide) (by decide)).2

theorem c9_locked_monotone_witness :
    (Main.handle_transactions [depTx 1 1 10, depTx 1 2 10, dispTx 1 2, cbTx 1 2])[0]?
        = some lockedClient ∧
    lockedClient.locked = true ∧
    (Main.handle_transactions
        ([depTx 1 1 10, depTx 1 2 10, dispTx 1 2, cbTx 1 2] ++ [depTx 1 3 5]))[0]?
        = some lockedClient := by
  have h0 : (Main.handle_transactions [depTx 1 1 10, depTx 1 2 10, dispTx 1 2, cbTx 1 2])[0]?
      = some lockedClient := by
    have hev : Main.handle_transactions [depTx 1 1 10, depTx 1 2 10, dispTx 1 2, cbTx 1 2]
        = [lockedClient] := by
      simp +decide [Main.handle_transactions, Main.applyTx, Main.deposit, Main.withdrawal,
        Main.dispute, Main.resolve, Main.chargeback, Main.find_client, modifyFirst,
        isTarget, depTx, wdTx, dispTx, resTx, cbTx, Transaction.amount0, List.find?,
        lockedClient]
    rw [hev]; rfl
  exact ⟨h0, rfl,
    c9_locked_monotone [depTx 1 1 10, depTx 1 2 10, dispTx 1 2, cbTx 1 2]
      [depTx 1 3 5] 0 lockedClient h0 rfl⟩

theorem c10_equiv_no_locked_deposit_witness :
    okRun [depTx 1 1 10, wdTx 1 2 2, dispTx 1 2, resTx 1 2, dispTx 1 1, cbTx 1 1] [] = true ∧
    Main.handle_transactions
        [depTx 1 1 10, wdTx 1 2 2, dispTx 1 2, resTx 1 2, dispTx 1 1, cbTx 1 1]
      = Txm.handle_transactions
        [depTx 1 1 10, wdTx 1 2 2, dispTx 1 2, resTx 1 2, dispTx 1 1, cbTx 1 1] :=
  ⟨by decide,
    c10_equiv_no_locked_deposit
      [depTx 1 1 10, wdTx 1 2 2, dispTx 1 2, resTx 1 2, dispTx 1 1, cbTx 1 1]
      (by decide)⟩
